import Mathlib

/-!
# GRT `ClassificationResult`

A shallow embedding of `GRT/Util/ClassificationResult.h`.

C++ objects have identity: `operator=` compares `this` with `&rhs`, and the
deep-copy properties speak about two instances that live side by side.  Objects
are therefore kept in a store indexed by addresses; a member function receives
the address `this`, a reference parameter is an address, and a by-value
parameter or result is a plain record.
-/

namespace GRT

/-- Modelled from the spec: `UINT` is declared in `GRTCommon.h`, which is not among the
sources; the spec describes the three label fields as unsigned integer identifiers.  No
arithmetic is performed on a `UINT` in this file, only copies and one `==`. -/
abbrev UINT := Nat

/-- Modelled from the spec: `VectorDouble` is declared in `GRTCommon.h`, which is not among
the sources; the spec describes it as an ordered sequence of floating-point scores whose
copy is a full duplication of the elements.  It is a value: a list of doubles. -/
abbrev VectorDouble := List Float

/-- The six data members of `class ClassificationResult`, in declaration order. -/
structure ClassificationResult where
  classLabel : UINT
  predictedClassLabel : UINT
  unprocessedPredictedClassLabel : UINT
  maximumLikelihood : Float
  classLikelihoods : VectorDouble
  classDistances : VectorDouble

/-- An address of an instance (`this`, or the target of a reference). -/
abbrev Addr := Nat

/-- The instances that are alive, by address. -/
abbrev Store := Addr → Option ClassificationResult

/-- The store after the instance at `a` has been given the state `o`. -/
def Store.write (σ : Store) (a : Addr) (o : ClassificationResult) : Store :=
  fun x => if x = a then some o else σ x

namespace ClassificationResult

/-- The constructor `ClassificationResult(UINT, UINT, UINT, double, VectorDouble, VectorDouble)`:
each of the six statements stores the parameter of the same name in the member of `*this`. -/
def ctor (this : Addr) (classLabel predictedClassLabel
    unprocessedPredictedClassLabel : UINT) (maximumLikelihood : Float)
    (classLikelihoods classDistances : VectorDouble) (σ : Store) : Store :=
  σ.write this
    { classLabel := classLabel
      predictedClassLabel := predictedClassLabel
      unprocessedPredictedClassLabel := unprocessedPredictedClassLabel
      maximumLikelihood := maximumLikelihood
      classLikelihoods := classLikelihoods
      classDistances := classDistances }

/-- The constructor called without arguments: every parameter takes the default value of the
declaration, `0`, `0`, `0`, `0`, `VectorDouble()`, `VectorDouble()`. -/
def ctor_default (this : Addr) (σ : Store) : Store :=
  ctor this 0 0 0 0 [] [] σ

/-- The copy constructor `ClassificationResult(const ClassificationResult &rhs)`: each of the
six statements stores a member of `rhs` in the same member of `*this`.  The reference `rhs`
has to designate a live instance. -/
def ctor_copy (this rhs : Addr) (σ : Store) : Option Store :=
  match σ rhs with
  | none => none
  | some r =>
    some (σ.write this
      { classLabel := r.classLabel
        predictedClassLabel := r.predictedClassLabel
        unprocessedPredictedClassLabel := r.unprocessedPredictedClassLabel
        maximumLikelihood := r.maximumLikelihood
        classLikelihoods := r.classLikelihoods
        classDistances := r.classDistances })

/-- The assignment `ClassificationResult operator=(const ClassificationResult &rhs)`: when
`this != &rhs` the six members of `rhs` are stored in `*this`; then `*this` is returned by
value.  The result is the store after the call and the returned record. -/
def operator_assign (this rhs : Addr) (σ : Store) : Option (Store × ClassificationResult) :=
  match σ this, σ rhs with
  | some d, some r =>
    let σ1 : Store :=
      if this ≠ rhs then
        σ.write this
          { d with
            classLabel := r.classLabel
            predictedClassLabel := r.predictedClassLabel
            unprocessedPredictedClassLabel := r.unprocessedPredictedClassLabel
            maximumLikelihood := r.maximumLikelihood
            classLikelihoods := r.classLikelihoods
            classDistances := r.classDistances }
      else σ
    match σ1 this with
    | some o => some (σ1, o)
    | none => none
  | _, _ => none

/-- The query `bool getCorrectPrediction()`: `classLabel == predictedClassLabel`. -/
def getCorrectPrediction (this : Addr) (σ : Store) : Option (Store × Bool) :=
  match σ this with
  | some o => some (σ, o.classLabel == o.predictedClassLabel)
  | none => none

/-- The accessor `UINT getClassLabel()`. -/
def getClassLabel (this : Addr) (σ : Store) : Option (Store × UINT) :=
  match σ this with
  | some o => some (σ, o.classLabel)
  | none => none

/-- The accessor `UINT getPredictedClassLabel()`. -/
def getPredictedClassLabel (this : Addr) (σ : Store) : Option (Store × UINT) :=
  match σ this with
  | some o => some (σ, o.predictedClassLabel)
  | none => none

/-- The accessor `UINT getUnprocessedPredictedClassLabel()`. -/
def getUnprocessedPredictedClassLabel (this : Addr) (σ : Store) : Option (Store × UINT) :=
  match σ this with
  | some o => some (σ, o.unprocessedPredictedClassLabel)
  | none => none

/-- The accessor `double getMaximumLikelihood()`. -/
def getMaximumLikelihood (this : Addr) (σ : Store) : Option (Store × Float) :=
  match σ this with
  | some o => some (σ, o.maximumLikelihood)
  | none => none

/-- The accessor `VectorDouble getClassLikelihoods()`. -/
def getClassLikelihoods (this : Addr) (σ : Store) : Option (Store × VectorDouble) :=
  match σ this with
  | some o => some (σ, o.classLikelihoods)
  | none => none

/-- The accessor `VectorDouble getClassDistances()`. -/
def getClassDistances (this : Addr) (σ : Store) : Option (Store × VectorDouble) :=
  match σ this with
  | some o => some (σ, o.classDistances)
  | none => none

/-- Field-for-field equality of two records: the four scalar members are equal and each of the
two sequences has the same length and the same element at every position. -/
def sameFields (b a : ClassificationResult) : Prop :=
  b.classLabel = a.classLabel
  ∧ b.predictedClassLabel = a.predictedClassLabel
  ∧ b.unprocessedPredictedClassLabel = a.unprocessedPredictedClassLabel
  ∧ b.maximumLikelihood = a.maximumLikelihood
  ∧ (b.classLikelihoods.length = a.classLikelihoods.length
      ∧ ∀ i : Nat, b.classLikelihoods[i]? = a.classLikelihoods[i]?)
  ∧ (b.classDistances.length = a.classDistances.length
      ∧ ∀ i : Nat, b.classDistances[i]? = a.classDistances[i]?)

/-- A client statement on the public member `classLikelihoods` of the live instance at `a`
that replaces or modifies the sequence: its new contents are `f` of the old ones. -/
def modify_classLikelihoods (a : Addr) (f : VectorDouble → VectorDouble) (σ : Store) :
    Option Store :=
  match σ a with
  | some o => some (σ.write a { o with classLikelihoods := f o.classLikelihoods })
  | none => none

/-- A client statement on the public member `classDistances` of the live instance at `a`
that replaces or modifies the sequence: its new contents are `f` of the old ones. -/
def modify_classDistances (a : Addr) (f : VectorDouble → VectorDouble) (σ : Store) :
    Option Store :=
  match σ a with
  | some o => some (σ.write a { o with classDistances := f o.classDistances })
  | none => none

/-- Two consecutive calls of a member function `g` on the instance at `this`, the second one
in the store left by the first: the final store and the two returned values. -/
def callTwice {α : Type} (g : Addr → Store → Option (Store × α)) (this : Addr) (σ : Store) :
    Option (Store × α × α) :=
  match g this σ with
  | some (σ1, v1) =>
    match g this σ1 with
    | some (σ2, v2) => some (σ2, v1, v2)
    | none => none
  | none => none

/-- Independence of a copy at `this` from its source at `rhs` in the store `σ1`, both holding
the state `a`: a change of `classLikelihoods` or `classDistances` of one of them takes effect
on that one and leaves the other with the state `a`. -/
def independentCopies (this rhs : Addr) (a : ClassificationResult) (σ1 : Store) : Prop :=
  σ1 this = some a ∧ σ1 rhs = some a
  ∧ ∀ f : VectorDouble → VectorDouble,
      (∃ σ2, modify_classLikelihoods rhs f σ1 = some σ2
        ∧ σ2 rhs = some { a with classLikelihoods := f a.classLikelihoods }
        ∧ σ2 this = some a)
      ∧ (∃ σ2, modify_classDistances rhs f σ1 = some σ2
        ∧ σ2 rhs = some { a with classDistances := f a.classDistances }
        ∧ σ2 this = some a)
      ∧ (∃ σ2, modify_classLikelihoods this f σ1 = some σ2
        ∧ σ2 this = some { a with classLikelihoods := f a.classLikelihoods }
        ∧ σ2 rhs = some a)
      ∧ (∃ σ2, modify_classDistances this f σ1 = some σ2
        ∧ σ2 this = some { a with classDistances := f a.classDistances }
        ∧ σ2 rhs = some a)

end ClassificationResult

/-- A store with two live instances: at address `0` a record with three class likelihoods and
three class distances, at address `1` a record with other contents. -/
def store2 : Store := fun x =>
  if x = 0 then some ⟨3, 5, 5, 0.7, [0.1, 0.7, 0.2], [2.0, 0.5, 3.1]⟩
  else if x = 1 then some ⟨1, 1, 2, 0.9, [0.9], []⟩
  else none

/-! ## Store lemmas -/

theorem Store.write_same (σ : Store) (a : Addr) (o : ClassificationResult) :
    (σ.write a o) a = some o := by
  simp [Store.write]

theorem Store.write_other (σ : Store) (a b : Addr) (o : ClassificationResult) (h : b ≠ a) :
    (σ.write a o) b = σ b := by
  simp [Store.write, h]

theorem Store.write_write (σ : Store) (a : Addr) (o o1 : ClassificationResult) :
    (σ.write a o).write a o1 = σ.write a o1 := by
  funext x
  by_cases hx : x = a <;> simp [Store.write, hx]

theorem ClassificationResult.sameFields_refl (a : ClassificationResult) :
    ClassificationResult.sameFields a a :=
  ⟨rfl, rfl, rfl, rfl, ⟨rfl, fun _ => rfl⟩, ⟨rfl, fun _ => rfl⟩⟩

theorem ClassificationResult.eq_of_sameFields (b a : ClassificationResult)
    (h : ClassificationResult.sameFields b a) : b = a := by
  obtain ⟨h1, h2, h3, h4, ⟨_, h5⟩, ⟨_, h6⟩⟩ := h
  cases b
  cases a
  simp only [ClassificationResult.mk.injEq]
  exact ⟨h1, h2, h3, h4, List.ext_getElem? h5, List.ext_getElem? h6⟩

/-- The result of `operator=` when source and destination are distinct live instances. -/
theorem ClassificationResult.operator_assign_distinct (this rhs : Addr) (σ : Store)
    (d a : ClassificationResult) (hd : σ this = some d) (ha : σ rhs = some a)
    (hne : this ≠ rhs) :
    ClassificationResult.operator_assign this rhs σ = some (σ.write this a, a) := by
  simp [ClassificationResult.operator_assign, hd, ha, hne, Store.write_same]

/-- The result of `operator=` when source and destination are the same live instance. -/
theorem ClassificationResult.operator_assign_same (this : Addr) (σ : Store)
    (a : ClassificationResult) (ha : σ this = some a) :
    ClassificationResult.operator_assign this this σ = some (σ, a) := by
  simp [ClassificationResult.operator_assign, ha]

/-- The result of the copy constructor from a live instance. -/
theorem ClassificationResult.ctor_copy_live (this rhs : Addr) (σ : Store)
    (a : ClassificationResult) (ha : σ rhs = some a) :
    ClassificationResult.ctor_copy this rhs σ = some (σ.write this a) := by
  simp [ClassificationResult.ctor_copy, ha]

/-- Once `this` and `rhs` are distinct live instances holding the same state, they are
independent copies: a write to one of them is a write at its own address only. -/
theorem ClassificationResult.independentCopies_of_live (this rhs : Addr)
    (a : ClassificationResult) (σ1 : Store) (ht : σ1 this = some a) (hr : σ1 rhs = some a)
    (hne : this ≠ rhs) : ClassificationResult.independentCopies this rhs a σ1 := by
  refine ⟨ht, hr, fun f => ⟨?_, ?_, ?_, ?_⟩⟩
  · refine ⟨σ1.write rhs { a with classLikelihoods := f a.classLikelihoods }, ?_,
      Store.write_same _ _ _, ?_⟩
    · simp [ClassificationResult.modify_classLikelihoods, hr]
    · rw [Store.write_other _ _ _ _ hne]; exact ht
  · refine ⟨σ1.write rhs { a with classDistances := f a.classDistances }, ?_,
      Store.write_same _ _ _, ?_⟩
    · simp [ClassificationResult.modify_classDistances, hr]
    · rw [Store.write_other _ _ _ _ hne]; exact ht
  · refine ⟨σ1.write this { a with classLikelihoods := f a.classLikelihoods }, ?_,
      Store.write_same _ _ _, ?_⟩
    · simp [ClassificationResult.modify_classLikelihoods, ht]
    · rw [Store.write_other _ _ _ _ (Ne.symm hne)]; exact hr
  · refine ⟨σ1.write this { a with classDistances := f a.classDistances }, ?_,
      Store.write_same _ _ _, ?_⟩
    · simp [ClassificationResult.modify_classDistances, ht]
    · rw [Store.write_other _ _ _ _ (Ne.symm hne)]; exact hr

/-- The result of `getCorrectPrediction` on a live instance. -/
theorem ClassificationResult.getCorrectPrediction_live (this : Addr) (σ : Store)
    (a : ClassificationResult) (ha : σ this = some a) :
    ClassificationResult.getCorrectPrediction this σ
      = some (σ, a.classLabel == a.predictedClassLabel) := by
  simp [ClassificationResult.getCorrectPrediction, ha]

/-! ## Claims -/

open ClassificationResult

/-- C1: on a record built by the constructor from a true label `t`, a predicted label `p` and
any other four values, `getCorrectPrediction` returns a boolean that is true exactly when
`t = p`, and leaves the store as it is; it returns true for `t = 3, p = 3` and false for
`t = 3, p = 5`. -/
theorem getCorrectPrediction_constructed :
    (∀ (this : Addr) (t p u : UINT) (m : Float) (L D : VectorDouble) (σ : Store),
      ∃ b : Bool,
        getCorrectPrediction this (ClassificationResult.ctor this t p u m L D σ)
          = some (ClassificationResult.ctor this t p u m L D σ, b)
        ∧ (b = true ↔ t = p))
    ∧ (∀ (this : Addr) (u : UINT) (m : Float) (L D : VectorDouble) (σ : Store),
        (getCorrectPrediction this
          (ClassificationResult.ctor this 3 3 u m L D σ)).map Prod.snd
          = some true)
    ∧ (∀ (this : Addr) (u : UINT) (m : Float) (L D : VectorDouble) (σ : Store),
        (getCorrectPrediction this
          (ClassificationResult.ctor this 3 5 u m L D σ)).map Prod.snd
          = some false) := by
  refine ⟨?_, ?_, ?_⟩
  · intro this t p u m L D σ
    refine ⟨t == p, ?_, by simp⟩
    simp [getCorrectPrediction, ClassificationResult.ctor, Store.write_same]
  · intro this u m L D σ
    simp [getCorrectPrediction, ClassificationResult.ctor, Store.write_same]
  · intro this u m L D σ
    simp [getCorrectPrediction, ClassificationResult.ctor, Store.write_same]

/-- C2: copying a live record `a` (at `rhs`) into a distinct instance `this`, by copy
construction or by assignment onto an existing record `d`, leaves at `this` a record equal to
`a` in all six fields, both sequences with the same length and the same elements in the same
order. -/
theorem copy_sameFields (this rhs : Addr) (σ : Store) (a : ClassificationResult)
    (ha : σ rhs = some a) (hne : this ≠ rhs) :
    (∃ σ1 b, ctor_copy this rhs σ = some σ1 ∧ σ1 this = some b ∧ sameFields b a ∧ b = a)
    ∧ (∀ d, σ this = some d →
        ∃ σ1 r b, operator_assign this rhs σ = some (σ1, r) ∧ σ1 this = some b
          ∧ sameFields b a ∧ b = a) := by
  refine ⟨⟨σ.write this a, a, ctor_copy_live this rhs σ a ha, Store.write_same _ _ _,
    sameFields_refl a, rfl⟩, ?_⟩
  intro d hd
  exact ⟨σ.write this a, a, a, operator_assign_distinct this rhs σ d a hd ha hne,
    Store.write_same _ _ _, sameFields_refl a, rfl⟩

theorem copy_sameFields_witness :
    store2 0 = some ⟨3, 5, 5, 0.7, [0.1, 0.7, 0.2], [2.0, 0.5, 3.1]⟩ ∧ (1 : Addr) ≠ 0
    ∧ ((∃ σ1 b, ctor_copy 1 0 store2 = some σ1 ∧ σ1 1 = some b
          ∧ sameFields b ⟨3, 5, 5, 0.7, [0.1, 0.7, 0.2], [2.0, 0.5, 3.1]⟩
          ∧ b = ⟨3, 5, 5, 0.7, [0.1, 0.7, 0.2], [2.0, 0.5, 3.1]⟩)
      ∧ (∀ d, store2 1 = some d →
          ∃ σ1 r b, operator_assign 1 0 store2 = some (σ1, r) ∧ σ1 1 = some b
            ∧ sameFields b ⟨3, 5, 5, 0.7, [0.1, 0.7, 0.2], [2.0, 0.5, 3.1]⟩
            ∧ b = ⟨3, 5, 5, 0.7, [0.1, 0.7, 0.2], [2.0, 0.5, 3.1]⟩)) :=
  ⟨rfl, by decide, copy_sameFields 1 0 store2 _ rfl (by decide)⟩

/-- C3: for any six constructor arguments, with no relation between them, the six accessors
of the constructed record return exactly these arguments, the sequences unchanged; the
likelihoods `[0.1, 0.7, 0.2]` and distances `[2.0, 0.5, 3.1]` come back as those sequences. -/
theorem accessors_constructed :
    (∀ (this : Addr) (t p u : UINT) (m : Float) (L D : VectorDouble) (σ : Store),
      getClassLabel this (ctor this t p u m L D σ) = some (ctor this t p u m L D σ, t)
      ∧ getPredictedClassLabel this (ctor this t p u m L D σ)
          = some (ctor this t p u m L D σ, p)
      ∧ getUnprocessedPredictedClassLabel this (ctor this t p u m L D σ)
          = some (ctor this t p u m L D σ, u)
      ∧ getMaximumLikelihood this (ctor this t p u m L D σ)
          = some (ctor this t p u m L D σ, m)
      ∧ getClassLikelihoods this (ctor this t p u m L D σ)
          = some (ctor this t p u m L D σ, L)
      ∧ getClassDistances this (ctor this t p u m L D σ)
          = some (ctor this t p u m L D σ, D))
    ∧ (∀ (this : Addr) (t p u : UINT) (m : Float) (σ : Store),
        (getClassLikelihoods this
            (ctor this t p u m [0.1, 0.7, 0.2] [2.0, 0.5, 3.1] σ)).map Prod.snd
          = some [0.1, 0.7, 0.2]
        ∧ (getClassDistances this
            (ctor this t p u m [0.1, 0.7, 0.2] [2.0, 0.5, 3.1] σ)).map Prod.snd
          = some [2.0, 0.5, 3.1]) := by
  refine ⟨?_, ?_⟩
  · intro this t p u m L D σ
    simp [getClassLabel, getPredictedClassLabel, getUnprocessedPredictedClassLabel,
      getMaximumLikelihood, getClassLikelihoods, getClassDistances, ctor, Store.write_same]
  · intro this t p u m σ
    simp [getClassLikelihoods, getClassDistances, ctor, Store.write_same]

/-- C4: the record built by the constructor without arguments has the three labels and the
maximum likelihood equal to `0` and both sequences empty, and `getCorrectPrediction` is true
on it. -/
theorem ctor_default_fields (this : Addr) (σ : Store) :
    (ctor_default this σ) this = some ⟨0, 0, 0, 0, [], []⟩
    ∧ (∃ o, (ctor_default this σ) this = some o
        ∧ o.classLabel = 0 ∧ o.predictedClassLabel = 0
        ∧ o.unprocessedPredictedClassLabel = 0 ∧ o.maximumLikelihood = 0
        ∧ o.classLikelihoods = [] ∧ o.classDistances = [])
    ∧ getCorrectPrediction this (ctor_default this σ) = some (ctor_default this σ, true) := by
  have h : (ctor_default this σ) this = some ⟨0, 0, 0, 0, [], []⟩ := by
    simp [ctor_default, ctor, Store.write_same]
  refine ⟨h, ⟨_, h, rfl, rfl, rfl, rfl, rfl, rfl⟩, ?_⟩
  simp [getCorrectPrediction, h]

/-- C5: assigning a live record to itself leaves the store, and so all six fields of the
record, unchanged, and the returned value is that unchanged state. -/
theorem self_assign_unchanged (this : Addr) (σ : Store) (a : ClassificationResult)
    (ha : σ this = some a) :
    ∃ σ1 r, operator_assign this this σ = some (σ1, r) ∧ σ1 = σ ∧ σ1 this = some a
      ∧ sameFields r a ∧ r = a :=
  ⟨σ, a, operator_assign_same this σ a ha, rfl, ha, sameFields_refl a, rfl⟩

theorem self_assign_unchanged_witness :
    store2 0 = some ⟨3, 5, 5, 0.7, [0.1, 0.7, 0.2], [2.0, 0.5, 3.1]⟩
    ∧ ∃ σ1 r, operator_assign 0 0 store2 = some (σ1, r) ∧ σ1 = store2
        ∧ σ1 0 = some ⟨3, 5, 5, 0.7, [0.1, 0.7, 0.2], [2.0, 0.5, 3.1]⟩
        ∧ sameFields r ⟨3, 5, 5, 0.7, [0.1, 0.7, 0.2], [2.0, 0.5, 3.1]⟩
        ∧ r = ⟨3, 5, 5, 0.7, [0.1, 0.7, 0.2], [2.0, 0.5, 3.1]⟩ :=
  ⟨rfl, self_assign_unchanged 0 store2 _ rfl⟩

/-- C6: a copy is independent of its source.  After copying the live record `a` at `rhs` into a
distinct instance `this`, by copy construction or by assignment, a replacement or modification
of `classLikelihoods` or `classDistances` of the source leaves the copy with every field as
it was, and one of the copy leaves the source with every field as it was. -/
theorem copies_independent (this rhs : Addr) (σ : Store) (a : ClassificationResult)
    (ha : σ rhs = some a) (hne : this ≠ rhs) :
    (∃ σ1, ctor_copy this rhs σ = some σ1 ∧ independentCopies this rhs a σ1)
    ∧ (∀ d, σ this = some d →
        ∃ σ1 r, operator_assign this rhs σ = some (σ1, r)
          ∧ independentCopies this rhs a σ1) := by
  have hind : independentCopies this rhs a (σ.write this a) :=
    independentCopies_of_live this rhs a _ (Store.write_same _ _ _)
      (by rw [Store.write_other _ _ _ _ (Ne.symm hne)]; exact ha) hne
  refine ⟨⟨_, ctor_copy_live this rhs σ a ha, hind⟩, ?_⟩
  intro d hd
  exact ⟨_, _, operator_assign_distinct this rhs σ d a hd ha hne, hind⟩

theorem copies_independent_witness :
    store2 0 = some ⟨3, 5, 5, 0.7, [0.1, 0.7, 0.2], [2.0, 0.5, 3.1]⟩ ∧ (1 : Addr) ≠ 0
    ∧ ((∃ σ1, ctor_copy 1 0 store2 = some σ1
          ∧ independentCopies 1 0 ⟨3, 5, 5, 0.7, [0.1, 0.7, 0.2], [2.0, 0.5, 3.1]⟩ σ1)
      ∧ (∀ d, store2 1 = some d →
          ∃ σ1 r, operator_assign 1 0 store2 = some (σ1, r)
            ∧ independentCopies 1 0 ⟨3, 5, 5, 0.7, [0.1, 0.7, 0.2], [2.0, 0.5, 3.1]⟩ σ1)) :=
  ⟨rfl, by decide, copies_independent 1 0 store2 _ rfl (by decide)⟩

/-- C7: assignment onto a distinct live instance behaves as copy construction.  The store left
by the assignment is the store left by copy-constructing `this` from `rhs`, the record at
`this` being the source record, which is also the record a copy construction from `rhs`
produces at any address `x`; and whatever state the destination held before, the outcome is
this same store. -/
theorem assign_eq_ctor_copy (this rhs : Addr) (σ : Store) (d a : ClassificationResult)
    (hd : σ this = some d) (ha : σ rhs = some a) (hne : this ≠ rhs) :
    (∃ σ1 r, operator_assign this rhs σ = some (σ1, r) ∧ ctor_copy this rhs σ = some σ1
      ∧ σ1 this = some a
      ∧ ∀ x : Addr, ∃ σ2, ctor_copy x rhs σ = some σ2 ∧ σ2 x = σ1 this)
    ∧ (∀ d1 : ClassificationResult,
        (operator_assign this rhs (σ.write this d1)).map Prod.fst = ctor_copy this rhs σ) := by
  refine ⟨⟨_, _, operator_assign_distinct this rhs σ d a hd ha hne,
    ctor_copy_live this rhs σ a ha, Store.write_same _ _ _, fun x =>
      ⟨_, ctor_copy_live x rhs σ a ha, by rw [Store.write_same, Store.write_same]⟩⟩, ?_⟩
  intro d1
  have ha1 : (σ.write this d1) rhs = some a := by
    rw [Store.write_other _ _ _ _ (Ne.symm hne)]; exact ha
  rw [operator_assign_distinct this rhs (σ.write this d1) d1 a (Store.write_same _ _ _) ha1 hne,
    ctor_copy_live this rhs σ a ha, Store.write_write]
  rfl

theorem assign_eq_ctor_copy_witness :
    store2 1 = some ⟨1, 1, 2, 0.9, [0.9], []⟩
    ∧ store2 0 = some ⟨3, 5, 5, 0.7, [0.1, 0.7, 0.2], [2.0, 0.5, 3.1]⟩ ∧ (1 : Addr) ≠ 0
    ∧ ((∃ σ1 r, operator_assign 1 0 store2 = some (σ1, r) ∧ ctor_copy 1 0 store2 = some σ1
          ∧ σ1 1 = some ⟨3, 5, 5, 0.7, [0.1, 0.7, 0.2], [2.0, 0.5, 3.1]⟩
          ∧ ∀ x : Addr, ∃ σ2, ctor_copy x 0 store2 = some σ2 ∧ σ2 x = σ1 1)
      ∧ (∀ d1 : ClassificationResult,
          (operator_assign 1 0 (store2.write 1 d1)).map Prod.fst = ctor_copy 1 0 store2)) :=
  ⟨rfl, rfl, by decide, assign_eq_ctor_copy 1 0 store2 _ _ rfl rfl (by decide)⟩

/-- C8: for every live destination `this` and live source `rhs`, the same instance or not,
the value returned by the assignment is the state of the destination after the assignment,
and this state is field for field the one of the source. -/
theorem assign_returns_this (this rhs : Addr) (σ : Store) (d a : ClassificationResult)
    (hd : σ this = some d) (ha : σ rhs = some a) :
    ∃ σ1 r, operator_assign this rhs σ = some (σ1, r) ∧ σ1 this = some r
      ∧ sameFields r a ∧ r = a := by
  by_cases hne : this = rhs
  · subst hne
    have hda : d = a := Option.some.inj (hd.symm.trans ha)
    subst hda
    exact ⟨σ, d, operator_assign_same this σ d hd, hd, sameFields_refl d, rfl⟩
  · exact ⟨_, a, operator_assign_distinct this rhs σ d a hd ha hne, Store.write_same _ _ _,
      sameFields_refl a, rfl⟩

theorem assign_returns_this_witness :
    store2 1 = some ⟨1, 1, 2, 0.9, [0.9], []⟩
    ∧ store2 0 = some ⟨3, 5, 5, 0.7, [0.1, 0.7, 0.2], [2.0, 0.5, 3.1]⟩
    ∧ ∃ σ1 r, operator_assign 1 0 store2 = some (σ1, r) ∧ σ1 1 = some r
        ∧ sameFields r ⟨3, 5, 5, 0.7, [0.1, 0.7, 0.2], [2.0, 0.5, 3.1]⟩
        ∧ r = ⟨3, 5, 5, 0.7, [0.1, 0.7, 0.2], [2.0, 0.5, 3.1]⟩ :=
  ⟨rfl, rfl, assign_returns_this 1 0 store2 _ _ rfl rfl⟩

/-- C9: the six accessors and `getCorrectPrediction` are pure queries.  Called on a live record
`a`, each of them returns the store it was given, so all six fields of `a` are unchanged, and
two consecutive calls return the same value twice. -/
theorem queries_pure (this : Addr) (σ : Store) (a : ClassificationResult)
    (ha : σ this = some a) :
    (getCorrectPrediction this σ = some (σ, a.classLabel == a.predictedClassLabel)
      ∧ callTwice getCorrectPrediction this σ
          = some (σ, a.classLabel == a.predictedClassLabel,
              a.classLabel == a.predictedClassLabel))
    ∧ (getClassLabel this σ = some (σ, a.classLabel)
      ∧ callTwice getClassLabel this σ = some (σ, a.classLabel, a.classLabel))
    ∧ (getPredictedClassLabel this σ = some (σ, a.predictedClassLabel)
      ∧ callTwice getPredictedClassLabel this σ
          = some (σ, a.predictedClassLabel, a.predictedClassLabel))
    ∧ (getUnprocessedPredictedClassLabel this σ = some (σ, a.unprocessedPredictedClassLabel)
      ∧ callTwice getUnprocessedPredictedClassLabel this σ
          = some (σ, a.unprocessedPredictedClassLabel, a.unprocessedPredictedClassLabel))
    ∧ (getMaximumLikelihood this σ = some (σ, a.maximumLikelihood)
      ∧ callTwice getMaximumLikelihood this σ
          = some (σ, a.maximumLikelihood, a.maximumLikelihood))
    ∧ (getClassLikelihoods this σ = some (σ, a.classLikelihoods)
      ∧ callTwice getClassLikelihoods this σ
          = some (σ, a.classLikelihoods, a.classLikelihoods))
    ∧ (getClassDistances this σ = some (σ, a.classDistances)
      ∧ callTwice getClassDistances this σ
          = some (σ, a.classDistances, a.classDistances))
    ∧ σ this = some a := by
  simp [callTwice, getCorrectPrediction, getClassLabel, getPredictedClassLabel,
    getUnprocessedPredictedClassLabel, getMaximumLikelihood, getClassLikelihoods,
    getClassDistances, ha]

theorem queries_pure_witness :
    store2 0 = some ⟨3, 5, 5, 0.7, [0.1, 0.7, 0.2], [2.0, 0.5, 3.1]⟩
    ∧ getCorrectPrediction 0 store2 = some (store2, false)
    ∧ callTwice getCorrectPrediction 0 store2 = some (store2, false, false)
    ∧ getClassLikelihoods 0 store2 = some (store2, [0.1, 0.7, 0.2])
    ∧ callTwice getClassLikelihoods 0 store2 = some (store2, [0.1, 0.7, 0.2], [0.1, 0.7, 0.2]) :=
  have h := queries_pure 0 store2 ⟨3, 5, 5, 0.7, [0.1, 0.7, 0.2], [2.0, 0.5, 3.1]⟩ rfl
  ⟨rfl, h.1.1, h.1.2, h.2.2.2.2.2.1.1, h.2.2.2.2.2.1.2⟩

/-- C10: every operation produces a result.  The constructor makes a live record from any
six values at any address, whatever the lengths of the two sequences; the copy constructor
from a live source, the assignment between live instances, the six accessors and
`getCorrectPrediction` on a live instance all return a value, none of them fails. -/
theorem operations_total (this rhs : Addr) (σ : Store) (d a : ClassificationResult)
    (hd : σ this = some d) (ha : σ rhs = some a) :
    (∀ (x : Addr) (t p u : UINT) (m : Float) (L D : VectorDouble) (τ : Store),
      ∃ o, (ctor x t p u m L D τ) x = some o)
    ∧ (∀ (x : Addr) (τ : Store), ∃ o, (ctor_default x τ) x = some o)
    ∧ (∀ x : Addr, ∃ σ1 o, ctor_copy x rhs σ = some σ1 ∧ σ1 x = some o)
    ∧ (∃ σ1 r o, operator_assign this rhs σ = some (σ1, r) ∧ σ1 this = some o)
    ∧ (∃ σ1 r o, operator_assign this this σ = some (σ1, r) ∧ σ1 this = some o)
    ∧ (∃ σ1 b, getCorrectPrediction this σ = some (σ1, b))
    ∧ (∃ σ1 v, getClassLabel this σ = some (σ1, v))
    ∧ (∃ σ1 v, getPredictedClassLabel this σ = some (σ1, v))
    ∧ (∃ σ1 v, getUnprocessedPredictedClassLabel this σ = some (σ1, v))
    ∧ (∃ σ1 v, getMaximumLikelihood this σ = some (σ1, v))
    ∧ (∃ σ1 v, getClassLikelihoods this σ = some (σ1, v))
    ∧ (∃ σ1 v, getClassDistances this σ = some (σ1, v)) := by
  refine ⟨?_, ?_, ?_, ?_, ?_, ?_, ?_, ?_, ?_, ?_, ?_, ?_⟩
  · intro x t p u m L D τ
    exact ⟨_, Store.write_same _ _ _⟩
  · intro x τ
    exact ⟨_, Store.write_same _ _ _⟩
  · intro x
    exact ⟨_, _, ctor_copy_live x rhs σ a ha, Store.write_same _ _ _⟩
  · by_cases hne : this = rhs
    · subst hne
      exact ⟨_, _, _, operator_assign_same this σ d hd, hd⟩
    · exact ⟨_, _, _, operator_assign_distinct this rhs σ d a hd ha hne, Store.write_same _ _ _⟩
  · exact ⟨_, _, _, operator_assign_same this σ d hd, hd⟩
  · exact ⟨σ, d.classLabel == d.predictedClassLabel, by simp [getCorrectPrediction, hd]⟩
  · exact ⟨σ, d.classLabel, by simp [getClassLabel, hd]⟩
  · exact ⟨σ, d.predictedClassLabel, by simp [getPredictedClassLabel, hd]⟩
  · exact ⟨σ, d.unprocessedPredictedClassLabel,
      by simp [getUnprocessedPredictedClassLabel, hd]⟩
  · exact ⟨σ, d.maximumLikelihood, by simp [getMaximumLikelihood, hd]⟩
  · exact ⟨σ, d.classLikelihoods, by simp [getClassLikelihoods, hd]⟩
  · exact ⟨σ, d.classDistances, by simp [getClassDistances, hd]⟩

theorem operations_total_witness :
    store2 1 = some ⟨1, 1, 2, 0.9, [0.9], []⟩
    ∧ store2 0 = some ⟨3, 5, 5, 0.7, [0.1, 0.7, 0.2], [2.0, 0.5, 3.1]⟩
    ∧ (∃ σ1 r o, operator_assign 1 0 store2 = some (σ1, r) ∧ σ1 1 = some o)
    ∧ (∃ σ1 o, ctor_copy 2 0 store2 = some σ1 ∧ σ1 2 = some o)
    ∧ (∃ σ1 v, getClassDistances 1 store2 = some (σ1, v)) :=
  have h := operations_total 1 0 store2 _ _ rfl rfl
  ⟨rfl, rfl, h.2.2.2.1, h.2.2.1 2, h.2.2.2.2.2.2.2.2.2.2.2⟩

/-- C11: `getCorrectPrediction` depends on `classLabel` and `predictedClassLabel` only.  Two live
records that agree on these two fields give the same result, whatever their other four
fields; and a record whose unprocessed predicted label equals the true label while its
predicted label differs from it is reported as incorrect. -/
theorem getCorrectPrediction_two_fields (this1 this2 : Addr) (σ1 σ2 : Store)
    (a b : ClassificationResult) (ha : σ1 this1 = some a) (hb : σ2 this2 = some b)
    (hc : a.classLabel = b.classLabel) (hp : a.predictedClassLabel = b.predictedClassLabel) :
    (∃ v : Bool, getCorrectPrediction this1 σ1 = some (σ1, v)
      ∧ getCorrectPrediction this2 σ2 = some (σ2, v))
    ∧ (a.unprocessedPredictedClassLabel = a.classLabel
        → a.predictedClassLabel ≠ a.classLabel
        → getCorrectPrediction this1 σ1 = some (σ1, false)) := by
  refine ⟨⟨a.classLabel == a.predictedClassLabel,
    getCorrectPrediction_live this1 σ1 a ha, ?_⟩, ?_⟩
  · rw [getCorrectPrediction_live this2 σ2 b hb, hc, hp]
  · intro _ hne
    rw [getCorrectPrediction_live this1 σ1 a ha]
    have hfalse : (a.classLabel == a.predictedClassLabel) = false := by
      simpa using fun h : a.classLabel = a.predictedClassLabel => hne h.symm
    rw [hfalse]

theorem getCorrectPrediction_two_fields_witness :
    (ctor 1 3 5 3 0.1 [] [0.4] store2) 1 = some ⟨3, 5, 3, 0.1, [], [0.4]⟩
    ∧ store2 0 = some ⟨3, 5, 5, 0.7, [0.1, 0.7, 0.2], [2.0, 0.5, 3.1]⟩
    ∧ (∃ v : Bool,
        getCorrectPrediction 1 (ctor 1 3 5 3 0.1 [] [0.4] store2)
          = some (ctor 1 3 5 3 0.1 [] [0.4] store2, v)
        ∧ getCorrectPrediction 0 store2 = some (store2, v))
    ∧ getCorrectPrediction 1 (ctor 1 3 5 3 0.1 [] [0.4] store2)
        = some (ctor 1 3 5 3 0.1 [] [0.4] store2, false) :=
  have h := getCorrectPrediction_two_fields 1 0 (ctor 1 3 5 3 0.1 [] [0.4] store2) store2
    ⟨3, 5, 3, 0.1, [], [0.4]⟩ ⟨3, 5, 5, 0.7, [0.1, 0.7, 0.2], [2.0, 0.5, 3.1]⟩
    rfl rfl rfl rfl
  ⟨rfl, rfl, h.1, h.2 rfl (by decide)⟩

/-- C12: copying leaves the source as it was and preserves the query.  After copy-constructing
a distinct instance `this` from the live record `a` at `rhs`, and after assigning `rhs` to
any live instance `this` (the same instance or not), the record at `rhs` is still `a` in all
six fields, and `getCorrectPrediction` returns on the destination the value it returns on
the source, which is the value it returned on the source before the copy. -/
theorem copy_preserves_source_and_query (this rhs : Addr) (σ : Store)
    (a : ClassificationResult) (ha : σ rhs = some a) :
    (this ≠ rhs →
      ∃ σ1 s, ctor_copy this rhs σ = some σ1 ∧ σ1 rhs = some s ∧ sameFields s a ∧ s = a
        ∧ ∃ v : Bool, getCorrectPrediction this σ1 = some (σ1, v)
          ∧ getCorrectPrediction rhs σ1 = some (σ1, v)
          ∧ getCorrectPrediction rhs σ = some (σ, v))
    ∧ (∀ d, σ this = some d →
      ∃ σ1 r s, operator_assign this rhs σ = some (σ1, r) ∧ σ1 rhs = some s
        ∧ sameFields s a ∧ s = a
        ∧ ∃ v : Bool, getCorrectPrediction this σ1 = some (σ1, v)
          ∧ getCorrectPrediction rhs σ1 = some (σ1, v)
          ∧ getCorrectPrediction rhs σ = some (σ, v)) := by
  have hdistinct : this ≠ rhs → (σ.write this a) rhs = some a := fun hne => by
    rw [Store.write_other _ _ _ _ (Ne.symm hne)]; exact ha
  refine ⟨fun hne => ?_, fun d hd => ?_⟩
  · exact ⟨σ.write this a, a, ctor_copy_live this rhs σ a ha, hdistinct hne,
      sameFields_refl a, rfl, a.classLabel == a.predictedClassLabel,
      getCorrectPrediction_live this _ a (Store.write_same _ _ _),
      getCorrectPrediction_live rhs _ a (hdistinct hne),
      getCorrectPrediction_live rhs σ a ha⟩
  · by_cases hne : this = rhs
    · subst hne
      exact ⟨σ, a, a, operator_assign_same this σ a ha, ha, sameFields_refl a, rfl,
        a.classLabel == a.predictedClassLabel, getCorrectPrediction_live this σ a ha,
        getCorrectPrediction_live this σ a ha, getCorrectPrediction_live this σ a ha⟩
    · exact ⟨σ.write this a, a, a, operator_assign_distinct this rhs σ d a hd ha hne,
        hdistinct hne, sameFields_refl a, rfl, a.classLabel == a.predictedClassLabel,
        getCorrectPrediction_live this _ a (Store.write_same _ _ _),
        getCorrectPrediction_live rhs _ a (hdistinct hne),
        getCorrectPrediction_live rhs σ a ha⟩

theorem copy_preserves_source_and_query_witness :
    store2 0 = some ⟨3, 5, 5, 0.7, [0.1, 0.7, 0.2], [2.0, 0.5, 3.1]⟩
    ∧ (∃ σ1 s, ctor_copy 2 0 store2 = some σ1 ∧ σ1 0 = some s
        ∧ sameFields s ⟨3, 5, 5, 0.7, [0.1, 0.7, 0.2], [2.0, 0.5, 3.1]⟩
        ∧ s = ⟨3, 5, 5, 0.7, [0.1, 0.7, 0.2], [2.0, 0.5, 3.1]⟩
        ∧ ∃ v : Bool, getCorrectPrediction 2 σ1 = some (σ1, v)
          ∧ getCorrectPrediction 0 σ1 = some (σ1, v)
          ∧ getCorrectPrediction 0 store2 = some (store2, v))
    ∧ (∃ σ1 r s, operator_assign 1 0 store2 = some (σ1, r) ∧ σ1 0 = some s
        ∧ sameFields s ⟨3, 5, 5, 0.7, [0.1, 0.7, 0.2], [2.0, 0.5, 3.1]⟩
        ∧ s = ⟨3, 5, 5, 0.7, [0.1, 0.7, 0.2], [2.0, 0.5, 3.1]⟩
        ∧ ∃ v : Bool, getCorrectPrediction 1 σ1 = some (σ1, v)
          ∧ getCorrectPrediction 0 σ1 = some (σ1, v)
          ∧ getCorrectPrediction 0 store2 = some (store2, v)) :=
  ⟨rfl,
    (copy_preserves_source_and_query 2 0 store2 _ rfl).1 (by decide),
    (copy_preserves_source_and_query 1 0 store2 _ rfl).2 ⟨1, 1, 2, 0.9, [0.9], []⟩ rfl⟩

end GRT
